import Mathlib

/-!
Shallow embedding of the layout engine and mode/gesture controller of the
holiday-tree web application (src/script.js, with the near-duplicate variants
src/unnamed/part_000 and src/unnamed/part_001).

Machine floats are modelled by exact reals; Math.random() draws are passed in
explicitly as parameters constrained to the unit interval.  JavaScript object
identity (the === comparisons on particle records) is modelled by a numeric
id field that is unique per created particle.
-/

namespace WebTreeApp

open Classical

/-- Display mode of the application (STATE.mode): TREE, SCATTER or FOCUS. -/
inductive Mode
  | TREE
  | SCATTER
  | FOCUS
deriving DecidableEq, Repr

/-- A 3D vector (THREE.Vector3) with exact real components. -/
structure Vec3 where
  x : ℝ
  y : ℝ
  z : ℝ
deriving Inhabited

/-- Euclidean length of a Vec3 (magnitude of the vector). -/
noncomputable def vnorm (v : Vec3) : ℝ :=
  Real.sqrt (v.x ^ 2 + v.y ^ 2 + v.z ^ 2)

/-- One particle record of the application.  The id field models JavaScript
object identity (each created particle object is a distinct reference). -/
structure Particle where
  id : ℕ
  basePosition : Vec3
  targetPosition : Vec3
  velocity : Vec3
  rotationSpeed : Vec3
  scale : ℝ
  isPhoto : Bool
deriving Inhabited

/-- The fresh Math.random() values consumed for one particle during one
layout pass (at most five calls per particle per pass). -/
structure Draw where
  d1 : ℝ
  d2 : ℝ
  d3 : ℝ
  d4 : ℝ
  d5 : ℝ
deriving Inhabited

/-- All five draws of a Draw record are possible Math.random() outcomes,
that is, they lie in the half-open unit interval. -/
def Draw.InUnit (d : Draw) : Prop :=
  (0 ≤ d.d1 ∧ d.d1 < 1) ∧ (0 ≤ d.d2 ∧ d.d2 < 1) ∧ (0 ≤ d.d3 ∧ d.d3 < 1) ∧
    (0 ≤ d.d4 ∧ d.d4 < 1) ∧ (0 ≤ d.d5 ∧ d.d5 < 1)

/-- TREE-mode radius formula of updateParticlePositions (src/script.js line
1037): radius = maxRadius * (1 - t * 0.8) with t = i / n. -/
noncomputable def treeRadius (maxRadius : ℝ) (n i : ℕ) : ℝ :=
  maxRadius * (1 - (i : ℝ) / (n : ℝ) * 0.8)

/-- TREE branch of updateParticlePositions (src/script.js lines 1028-1047):
photo particles are skipped; a decorative particle at index i of n is placed
on a spiral cone. -/
noncomputable def treeUpdate (isMobile : Bool) (n i : ℕ) (p : Particle) : Particle :=
  if p.isPhoto then p
  else
    let maxRadius : ℝ := if isMobile then 8 else 12
    let height : ℝ := if isMobile then 18 else 25
    let t : ℝ := (i : ℝ) / (n : ℝ)
    let radius : ℝ := treeRadius maxRadius n i
    let angle : ℝ := t * 50 * Real.pi
    let y : ℝ := t * height - height / 2
    { p with
        targetPosition := ⟨Real.cos angle * radius, y, Real.sin angle * radius⟩
        scale := if isMobile then 0.8 else 1 }

/-- SCATTER branch of updateParticlePositions (src/script.js lines
1049-1067): photo particles are skipped; a decorative particle is sent to a
random point whose horizontal direction is spherical but whose height is an
independent uniform draw. -/
noncomputable def scatterUpdate (isMobile : Bool) (d : Draw) (p : Particle) : Particle :=
  if p.isPhoto then p
  else
    let minRadius : ℝ := if isMobile then 6 else 8
    let maxRadius : ℝ := if isMobile then 15 else 20
    let radius : ℝ := minRadius + d.d1 * (maxRadius - minRadius)
    let theta : ℝ := d.d2 * Real.pi * 2
    let phi : ℝ := Real.arccos (2 * d.d3 - 1)
    { p with
        targetPosition :=
          ⟨radius * Real.sin phi * Real.cos theta,
            (d.d4 - 0.5) * maxRadius * 1.5,
            radius * Real.sin phi * Real.sin theta⟩
        scale := 0.8 + d.d5 * 0.4 }

/-- Id of the randomly selected subject photo in FOCUS mode
(src/script.js line 1072): photos[Math.floor(Math.random() * photos.length)],
with u the Math.random() outcome. -/
noncomputable def focusTargetId (u : ℝ) (particles : List Particle) : ℕ :=
  let photos := particles.filter (fun p => p.isPhoto)
  (photos.getD (Nat.floor (u * (photos.length : ℝ))) default).id

/-- FOCUS branch per-particle update (src/script.js lines 1069-1106): the
selected photo goes to the fixed stage position at the enlarged scale, every
other photo goes to an outer ring, every decorative particle becomes
scattered background. -/
noncomputable def focusUpdate (isMobile : Bool) (targetId : ℕ) (d : Draw) (p : Particle) :
    Particle :=
  if p.id = targetId then
    { p with
        targetPosition := ⟨0, 2, if isMobile then 25 else 35⟩
        scale := if isMobile then 3.5 else 4.5 }
  else if p.isPhoto then
    let angle : ℝ := d.d1 * Real.pi * 2
    let radius : ℝ := (if isMobile then 15 else 20 : ℝ) + d.d2 * 10
    { p with
        targetPosition :=
          ⟨Real.cos angle * radius, (d.d3 - 0.5) * 10, Real.sin angle * radius⟩
        scale := if isMobile then 0.8 else 1 }
  else
    let minRadius : ℝ := if isMobile then 8 else 10
    let maxRadius : ℝ := if isMobile then 20 else 25
    let radius : ℝ := minRadius + d.d1 * (maxRadius - minRadius)
    let theta : ℝ := d.d2 * Real.pi * 2
    let phi : ℝ := Real.arccos (2 * d.d3 - 1)
    { p with
        targetPosition :=
          ⟨radius * Real.sin phi * Real.cos theta,
            (d.d4 - 0.5) * maxRadius,
            radius * Real.sin phi * Real.sin theta⟩
        scale := 0.5 + d.d5 * 0.5 }

/-- forEach with its running index (particles.forEach((particle, i) => ...)). -/
def mapWithIndex (f : ℕ → Particle → Particle) : ℕ → List Particle → List Particle
  | _, [] => []
  | i, p :: ps => f i p :: mapWithIndex f (i + 1) ps

/-- The layout engine updateParticlePositions (src/script.js lines
1025-1107) as a function of the device profile, the current mode, the random
draws (u for the FOCUS subject selection, draws i for the particle at index
i) and the particle collection.  In FOCUS mode with zero photos the source
does nothing. -/
noncomputable def updateParticlePositions (isMobile : Bool) (mode : Mode) (u : ℝ)
    (draws : ℕ → Draw) (particles : List Particle) : List Particle :=
  match mode with
  | Mode.TREE => mapWithIndex (fun i p => treeUpdate isMobile particles.length i p) 0 particles
  | Mode.SCATTER => mapWithIndex (fun i p => scatterUpdate isMobile (draws i) p) 0 particles
  | Mode.FOCUS =>
      let photos := particles.filter (fun p => p.isPhoto)
      if 0 < photos.length then
        mapWithIndex
          (fun i p => focusUpdate isMobile (focusTargetId u particles) (draws i) p) 0 particles
      else particles

/-- One hand landmark (normalized MediaPipe coordinates). -/
structure LM where
  x : ℝ
  y : ℝ
  z : ℝ
deriving Inhabited

/-- Math.hypot on three arguments. -/
noncomputable def hypot3 (a b c : ℝ) : ℝ :=
  Real.sqrt (a ^ 2 + b ^ 2 + c ^ 2)

/-- Normalized pinch distance, thumb tip (landmark 4) to index tip
(landmark 8) (src/script.js lines 419-423). -/
noncomputable def pinchDist (lm : ℕ → LM) : ℝ :=
  hypot3 ((lm 4).x - (lm 8).x) ((lm 4).y - (lm 8).y) ((lm 4).z - (lm 8).z)

/-- The four fingertip-to-wrist distances (src/script.js lines 426-431):
index, middle, ring and pinky tips (landmarks 8, 12, 16, 20) to the wrist
(landmark 0). -/
noncomputable def fingerWristDistances (lm : ℕ → LM) : List ℝ :=
  [hypot3 ((lm 8).x - (lm 0).x) ((lm 8).y - (lm 0).y) ((lm 8).z - (lm 0).z),
    hypot3 ((lm 12).x - (lm 0).x) ((lm 12).y - (lm 0).y) ((lm 12).z - (lm 0).z),
    hypot3 ((lm 16).x - (lm 0).x) ((lm 16).y - (lm 0).y) ((lm 16).z - (lm 0).z),
    hypot3 ((lm 20).x - (lm 0).x) ((lm 20).y - (lm 0).y) ((lm 20).z - (lm 0).z)]

/-- Mean fingertip-to-wrist distance (src/script.js line 433). -/
noncomputable def avgFingerDistance (lm : ℕ → LM) : ℝ :=
  (fingerWristDistances lm).sum / ((fingerWristDistances lm).length : ℝ)

/-- Gesture-controller debounce window in milliseconds
(src/script.js line 294). -/
def debounceTime : ℤ := 500

/-- The state read and written by processGestures: the current display mode
and the timestamp of the last gesture-triggered transition. -/
structure GCState where
  mode : Mode
  lastGestureTime : ℤ
deriving DecidableEq, Repr

/-- processGestures (src/script.js lines 407-446): outside the debounce
window, check pinch (to FOCUS), then fist (to TREE), then open hand (to
SCATTER), in that order; a firing transition records the current time. -/
noncomputable def processGestures (st : GCState) (now : ℤ) (lm : ℕ → LM) : GCState :=
  if now - st.lastGestureTime < debounceTime then st
  else if pinchDist lm < 0.05 ∧ st.mode ≠ Mode.FOCUS then
    { mode := Mode.FOCUS, lastGestureTime := now }
  else if avgFingerDistance lm < 0.25 ∧ st.mode ≠ Mode.TREE then
    { mode := Mode.TREE, lastGestureTime := now }
  else if avgFingerDistance lm > 0.4 ∧ st.mode ≠ Mode.SCATTER then
    { mode := Mode.SCATTER, lastGestureTime := now }
  else st

/-- A landmark frame qualifies as a gesture input when it satisfies a
transition threshold for a mode other than the current one (the three branch
conditions of processGestures). -/
def Qualifies (m : Mode) (lm : ℕ → LM) : Prop :=
  (pinchDist lm < 0.05 ∧ m ≠ Mode.FOCUS) ∨
    (avgFingerDistance lm < 0.25 ∧ m ≠ Mode.TREE) ∨
    (avgFingerDistance lm > 0.4 ∧ m ≠ Mode.SCATTER)

/-- One touch contact point. -/
structure Touch where
  clientX : ℝ
  clientY : ℝ
deriving Inhabited

/-- Touch drag sensitivity (src/script.js line 108). -/
noncomputable def sensitivity : ℝ := 0.005

/-- Distance between two touch points, getTouchDistance
(src/script.js lines 259-263). -/
noncomputable def getTouchDistance (t1 t2 : Touch) : ℝ :=
  Real.sqrt ((t1.clientX - t2.clientX) ^ 2 + (t1.clientY - t2.clientY) ^ 2)

/-- The state read and written by handleTouchMove: the stored single-finger
start point, the accumulated drag rotation, the two-finger start distance
and the current mode. -/
structure TouchState where
  touchStartX : ℝ
  touchStartY : ℝ
  touchRotationX : ℝ
  touchRotationY : ℝ
  pinchStartDistance : ℝ
  mode : Mode

/-- handleTouchMove (src/script.js lines 183-221): a single-finger move
accumulates drag rotation and clamps the X-axis accumulator to
[-pi/3, pi/3]; a two-finger move compares the current inter-finger distance
against the start distance and switches to FOCUS below the 0.7 ratio when
not already in FOCUS (setMode only changes the mode field here). -/
noncomputable def handleTouchMove (st : TouchState) (touches : List Touch) : TouchState :=
  if touches.length = 1 ∧ st.touchStartX ≠ 0 then
    let touch := touches.getD 0 default
    let deltaX := touch.clientX - st.touchStartX
    let deltaY := touch.clientY - st.touchStartY
    let newRotY := st.touchRotationY + deltaX * sensitivity
    let newRotX := st.touchRotationX + deltaY * sensitivity
    { st with
        touchRotationX := max (-(Real.pi / 3)) (min (Real.pi / 3) newRotX)
        touchRotationY := newRotY
        touchStartX := touch.clientX
        touchStartY := touch.clientY }
  else if touches.length = 2 ∧ 0 < st.pinchStartDistance then
    let t1 := touches.getD 0 default
    let t2 := touches.getD 1 default
    let currentDistance := getTouchDistance t1 t2
    let pinchRatio := currentDistance / st.pinchStartDistance
    if pinchRatio < 0.7 ∧ st.mode ≠ Mode.FOCUS then
      { st with mode := Mode.FOCUS, pinchStartDistance := 0 }
    else st
  else st

/-- The two particle collections maintained by the application: the full
list and the photo sublist, both in insertion order. -/
structure PhotoState where
  particles : List Particle
  photos : List Particle

/-- The eviction-and-store part of addPhotoToScene (src/script.js lines
954-960 and 1010-1011): when the photo count has reached the configured
maximum, shift the oldest photo off the front and filter it out of the
particle list, then push the new photo particle onto both lists.  The empty
match arm is unreachable whenever maxPhotos is at least one (in the source,
shift on an empty array would yield undefined and the following field access
would throw). -/
def addPhotoToScene (maxPhotos : ℕ) (st : PhotoState) (newPhoto : Particle) : PhotoState :=
  if maxPhotos ≤ st.photos.length then
    match st.photos with
    | [] => { particles := st.particles ++ [newPhoto], photos := st.photos ++ [newPhoto] }
    | old :: rest =>
        { particles := st.particles.filter (fun p => p.id ≠ old.id) ++ [newPhoto]
          photos := rest ++ [newPhoto] }
  else { particles := st.particles ++ [newPhoto], photos := st.photos ++ [newPhoto] }

/-! ### Helper lemmas -/

lemma length_mapWithIndex (f : ℕ → Particle → Particle) (k : ℕ) (l : List Particle) :
    (mapWithIndex f k l).length = l.length := by
  induction l generalizing k with
  | nil => rfl
  | cons p ps ih => simp [mapWithIndex, ih]

lemma getD_mapWithIndex (f : ℕ → Particle → Particle) (k : ℕ) (l : List Particle)
    (i : ℕ) (hi : i < l.length) :
    (mapWithIndex f k l).getD i default = f (k + i) (l.getD i default) := by
  induction l generalizing k i with
  | nil => simp at hi
  | cons p ps ih =>
      cases i with
      | zero => simp [mapWithIndex]
      | succ j =>
          have hj : j < ps.length := by simpa using hi
          simp only [mapWithIndex, List.getD_cons_succ]
          rw [ih (k + 1) j hj]
          ring_nf

lemma mem_mapWithIndex (f : ℕ → Particle → Particle) (k : ℕ) (l : List Particle)
    (q : Particle) (hq : q ∈ mapWithIndex f k l) :
    ∃ i, i < l.length ∧ q = f (k + i) (l.getD i default) := by
  induction l generalizing k with
  | nil => simp [mapWithIndex] at hq
  | cons p ps ih =>
      simp only [mapWithIndex, List.mem_cons] at hq
      rcases hq with h | h
      · exact ⟨0, by simp, by simpa using h⟩
      · rcases ih (k + 1) h with ⟨j, hj, hqe⟩
        exact ⟨j + 1, by simpa using hj, by simpa [Nat.add_comm, Nat.add_assoc,
          Nat.add_left_comm] using hqe⟩

lemma getD_mem_mapWithIndex (f : ℕ → Particle → Particle) (k : ℕ) (l : List Particle)
    (i : ℕ) (hi : i < l.length) :
    f (k + i) (l.getD i default) ∈ mapWithIndex f k l := by
  induction l generalizing k i with
  | nil => simp at hi
  | cons p ps ih =>
      cases i with
      | zero => simp [mapWithIndex]
      | succ j =>
          have hj : j < ps.length := by simpa using hi
          have := ih (k + 1) j hj
          simp only [mapWithIndex, List.mem_cons, List.getD_cons_succ]
          right
          have harith : k + 1 + j = k + (j + 1) := by omega
          rwa [harith] at this

/-- Landmark frame with every landmark at the origin. -/
def zeroLm : ℕ → LM := fun _ => ⟨0, 0, 0⟩

lemma pinchDist_zeroLm : pinchDist zeroLm = 0 := by
  norm_num [pinchDist, hypot3, zeroLm]

lemma avgFingerDistance_zeroLm : avgFingerDistance zeroLm = 0 := by
  norm_num [avgFingerDistance, fingerWristDistances, hypot3, zeroLm]

/-! ### C4: FOCUS with zero photos is a silent no-op -/

/-- C4: for every particle collection containing zero photo particles, a
FOCUS-mode layout pass leaves every particle (targetPosition and scale
included) unchanged from its pre-call value. -/
theorem focus_no_photos_noop (isMobile : Bool) (u : ℝ) (draws : ℕ → Draw)
    (particles : List Particle) (h : particles.filter (fun p => p.isPhoto) = []) :
    updateParticlePositions isMobile Mode.FOCUS u draws particles = particles := by
  simp [updateParticlePositions, h]

/-- A concrete decorative (non-photo) particle. -/
def pDeco : Particle :=
  ⟨1, ⟨0, 0, 0⟩, ⟨0, 0, 0⟩, ⟨0, 0, 0⟩, ⟨0, 0, 0⟩, 1, false⟩

/-- The all-zero random draw. -/
def dZero : Draw := ⟨0, 0, 0, 0, 0⟩

theorem focus_no_photos_noop_witness :
    List.filter (fun p => p.isPhoto) [pDeco] = [] ∧
      updateParticlePositions false Mode.FOCUS 0 (fun _ => dZero) [pDeco] = [pDeco] :=
  ⟨by simp [pDeco], focus_no_photos_noop false 0 (fun _ => dZero) [pDeco] (by simp [pDeco])⟩

/-! ### C6: TREE-mode radius is monotonically non-increasing in index -/

/-- C6: for n at least 1 and nonnegative maxRadius, the TREE-mode radius
maxRadius * (1 - 0.8 * (i / n)) is monotonically non-increasing as the index
i increases, equals the full maxRadius at i = 0, and stays at least
0.2 * maxRadius for every index up to n. -/
theorem tree_radius_monotone (maxRadius : ℝ) (n : ℕ) (hm : 0 ≤ maxRadius) (hn : 1 ≤ n) :
    (∀ i j : ℕ, i ≤ j → treeRadius maxRadius n j ≤ treeRadius maxRadius n i) ∧
      treeRadius maxRadius n 0 = maxRadius ∧
      ∀ i : ℕ, i ≤ n → 0.2 * maxRadius ≤ treeRadius maxRadius n i := by
  have hn0 : (0 : ℝ) < (n : ℝ) := by exact_mod_cast hn
  refine ⟨?_, ?_, ?_⟩
  · intro i j hij
    have hcast : (i : ℝ) ≤ (j : ℝ) := by exact_mod_cast hij
    have hdiv : (i : ℝ) / (n : ℝ) ≤ (j : ℝ) / (n : ℝ) :=
      div_le_div_of_nonneg_right hcast hn0.le
    unfold treeRadius
    apply mul_le_mul_of_nonneg_left _ hm
    linarith
  · unfold treeRadius
    simp
  · intro i hi
    have hcast : (i : ℝ) ≤ (n : ℝ) := by exact_mod_cast hi
    have hdiv : (i : ℝ) / (n : ℝ) ≤ 1 := by
      rw [div_le_one hn0]
      exact hcast
    unfold treeRadius
    nlinarith

theorem tree_radius_monotone_witness :
    treeRadius 12 10 5 ≤ treeRadius 12 10 2 ∧ treeRadius 12 10 0 = 12 ∧
      0.2 * 12 ≤ treeRadius 12 10 7 :=
  ⟨(tree_radius_monotone 12 10 (by norm_num) (by norm_num)).1 2 5 (by norm_num),
    (tree_radius_monotone 12 10 (by norm_num) (by norm_num)).2.1,
    (tree_radius_monotone 12 10 (by norm_num) (by norm_num)).2.2 7 (by norm_num)⟩

/-! ### C3: FIFO photo eviction and bounded photo count -/

lemma addPhotoToScene_length_le (maxPhotos : ℕ) (hmax : 1 ≤ maxPhotos) (st : PhotoState)
    (hinv : st.photos.length ≤ maxPhotos) (q : Particle) :
    (addPhotoToScene maxPhotos st q).photos.length ≤ maxPhotos := by
  obtain ⟨parts, photos⟩ := st
  simp only at hinv
  cases photos with
  | nil =>
      have h0 : ¬ maxPhotos ≤ ([] : List Particle).length := by
        simp
        omega
      simp [addPhotoToScene, h0]
      omega
  | cons old rest =>
      simp only [List.length_cons] at hinv
      by_cases h : maxPhotos ≤ rest.length + 1
      · simp [addPhotoToScene, h]
        omega
      · simp [addPhotoToScene, h]
        omega

/-- C3: when the photo collection already holds the configured maximum,
adding a photo evicts exactly the oldest-added photo (front of the FIFO
list) from both lists and appends the new one; and starting from any state
within the bound, the photo count stays within the configured maximum over
every sequence of additions. -/
theorem photo_eviction_fifo_bounded (maxPhotos : ℕ) (hmax : 1 ≤ maxPhotos) (st : PhotoState)
    (hinv : st.photos.length ≤ maxPhotos) :
    (∀ q old rest, st.photos = old :: rest → st.photos.length = maxPhotos →
        (addPhotoToScene maxPhotos st q).photos = rest ++ [q] ∧
          (addPhotoToScene maxPhotos st q).particles =
            st.particles.filter (fun p => p.id ≠ old.id) ++ [q]) ∧
      ∀ qs : List Particle,
        ((qs.foldl (addPhotoToScene maxPhotos) st).photos.length ≤ maxPhotos) := by
  constructor
  · intro q old rest hp hfull
    obtain ⟨parts, photos⟩ := st
    simp only at hp hfull
    subst hp
    have h : maxPhotos ≤ rest.length + 1 := by
      simp only [List.length_cons] at hfull
      omega
    simp [addPhotoToScene, h]
  · intro qs
    induction qs generalizing st with
    | nil => exact hinv
    | cons q qs ih =>
        exact ih (addPhotoToScene maxPhotos st q)
          (addPhotoToScene_length_le maxPhotos hmax st hinv q)

/-- A concrete photo particle with id 2. -/
def pPhoto2 : Particle :=
  ⟨2, ⟨0, 0, 0⟩, ⟨0, 0, 0⟩, ⟨0, 0, 0⟩, ⟨0, 0, 0⟩, 1, true⟩

/-- A concrete photo particle with id 3. -/
def pPhoto3 : Particle :=
  ⟨3, ⟨0, 0, 0⟩, ⟨0, 0, 0⟩, ⟨0, 0, 0⟩, ⟨0, 0, 0⟩, 1, true⟩

/-- A concrete photo particle with id 4. -/
def pPhoto4 : Particle :=
  ⟨4, ⟨0, 0, 0⟩, ⟨0, 0, 0⟩, ⟨0, 0, 0⟩, ⟨0, 0, 0⟩, 1, true⟩

theorem photo_eviction_fifo_bounded_witness :
    ((addPhotoToScene 2 ⟨[pPhoto2, pPhoto3], [pPhoto2, pPhoto3]⟩ pPhoto4).photos =
        [pPhoto3] ++ [pPhoto4] ∧
      (addPhotoToScene 2 ⟨[pPhoto2, pPhoto3], [pPhoto2, pPhoto3]⟩ pPhoto4).particles =
        List.filter (fun p => p.id ≠ pPhoto2.id) [pPhoto2, pPhoto3] ++ [pPhoto4]) ∧
      ((List.foldl (addPhotoToScene 2) ⟨[pPhoto2, pPhoto3], [pPhoto2, pPhoto3]⟩
          [pPhoto4, pPhoto4]).photos.length ≤ 2) :=
  ⟨(photo_eviction_fifo_bounded 2 (by norm_num) ⟨[pPhoto2, pPhoto3], [pPhoto2, pPhoto3]⟩
      (by norm_num)).1 pPhoto4 pPhoto2 [pPhoto3] rfl (by norm_num),
    (photo_eviction_fifo_bounded 2 (by norm_num) ⟨[pPhoto2, pPhoto3], [pPhoto2, pPhoto3]⟩
      (by norm_num)).2 [pPhoto4, pPhoto4]⟩

/-! ### C10: the X-axis touch rotation accumulator is clamped, the Y-axis one is not -/

/-- C10: after every single-finger touch-move event (with an active start
point), the accumulated X-axis touch rotation lies within [-pi/3, pi/3],
while the Y-axis accumulator is unbounded: for every bound B some
single-finger move drives it above B. -/
theorem touch_rotation_clamp :
    (∀ (st : TouchState) (touches : List Touch), touches.length = 1 → st.touchStartX ≠ 0 →
        -(Real.pi / 3) ≤ (handleTouchMove st touches).touchRotationX ∧
          (handleTouchMove st touches).touchRotationX ≤ Real.pi / 3) ∧
      ∀ B : ℝ, ∃ (st : TouchState) (touches : List Touch),
        touches.length = 1 ∧ st.touchStartX ≠ 0 ∧
          B < (handleTouchMove st touches).touchRotationY := by
  constructor
  · intro st touches h1 h2
    rw [handleTouchMove, if_pos ⟨h1, h2⟩]
    refine ⟨le_max_left _ _, max_le ?_ (min_le_left _ _)⟩
    have hpi : 0 < Real.pi := Real.pi_pos
    linarith
  · intro B
    refine ⟨⟨1, 0, 0, 0, 0, Mode.TREE⟩, [⟨(B + 1) / sensitivity + 1, 0⟩], rfl,
      one_ne_zero, ?_⟩
    rw [handleTouchMove, if_pos ⟨rfl, one_ne_zero⟩]
    have hs : sensitivity ≠ 0 := by norm_num [sensitivity]
    have hcancel : (B + 1) / sensitivity * sensitivity = B + 1 := div_mul_cancel₀ _ hs
    simp only [List.getD_cons_zero]
    have : (0 : ℝ) + ((B + 1) / sensitivity + 1 - 1) * sensitivity = B + 1 := by
      rw [add_sub_cancel_right, hcancel]
      ring
    rw [this]
    linarith

/-- Concrete touch state with an active single-finger start point. -/
def tsW : TouchState := ⟨1, 0, 0, 0, 0, Mode.TREE⟩

theorem touch_rotation_clamp_witness :
    (-(Real.pi / 3) ≤ (handleTouchMove tsW [⟨2, 3⟩]).touchRotationX ∧
        (handleTouchMove tsW [⟨2, 3⟩]).touchRotationX ≤ Real.pi / 3) ∧
      ∃ (st : TouchState) (touches : List Touch),
        touches.length = 1 ∧ st.touchStartX ≠ 0 ∧
          (0 : ℝ) < (handleTouchMove st touches).touchRotationY :=
  ⟨touch_rotation_clamp.1 tsW [⟨2, 3⟩] rfl (by norm_num [tsW]),
    touch_rotation_clamp.2 0⟩

/-! ### C8: two-finger pinch-ratio trigger at 0.69 and 0.71 -/

/-- C8: for every two-finger touch-move with an active pinch start distance,
a current-to-start inter-finger distance ratio of exactly 0.69 switches the
mode to FOCUS when the current mode is not FOCUS, and a ratio of exactly
0.71 leaves the state unchanged (no mode transition). -/
theorem pinch_ratio_focus_trigger (st : TouchState) (t1 t2 : Touch)
    (hp : 0 < st.pinchStartDistance) :
    (getTouchDistance t1 t2 / st.pinchStartDistance = 0.69 → st.mode ≠ Mode.FOCUS →
        (handleTouchMove st [t1, t2]).mode = Mode.FOCUS) ∧
      (getTouchDistance t1 t2 / st.pinchStartDistance = 0.71 →
        handleTouchMove st [t1, t2] = st) := by
  have hlen : ¬(([t1, t2] : List Touch).length = 1 ∧ st.touchStartX ≠ 0) := by
    simp
  constructor
  · intro hr hm
    rw [handleTouchMove, if_neg hlen, if_pos ⟨rfl, hp⟩]
    simp only [List.getD_cons_zero, List.getD_cons_succ]
    rw [if_pos ⟨by rw [hr]; norm_num, hm⟩]
  · intro hr
    rw [handleTouchMove, if_neg hlen, if_pos ⟨rfl, hp⟩]
    simp only [List.getD_cons_zero, List.getD_cons_succ]
    rw [if_neg]
    intro hcon
    rw [hr] at hcon
    norm_num at hcon

/-- Concrete touch state in TREE mode with pinch start distance 100. -/
def tsP : TouchState := ⟨0, 0, 0, 0, 100, Mode.TREE⟩

lemma getTouchDistance_horizontal (a : ℝ) (h : 0 ≤ a) :
    getTouchDistance ⟨0, 0⟩ ⟨a, 0⟩ = a := by
  rw [getTouchDistance]
  simp only
  have : (0 - a) ^ 2 + ((0 : ℝ) - 0) ^ 2 = a ^ 2 := by ring
  rw [this, Real.sqrt_sq h]

theorem pinch_ratio_focus_trigger_witness :
    (handleTouchMove tsP [⟨0, 0⟩, ⟨69, 0⟩]).mode = Mode.FOCUS ∧
      handleTouchMove tsP [⟨0, 0⟩, ⟨71, 0⟩] = tsP :=
  ⟨(pinch_ratio_focus_trigger tsP ⟨0, 0⟩ ⟨69, 0⟩ (by norm_num [tsP])).1
      (by rw [getTouchDistance_horizontal 69 (by norm_num)]; norm_num [tsP])
      (by simp [tsP]),
    (pinch_ratio_focus_trigger tsP ⟨0, 0⟩ ⟨71, 0⟩ (by norm_num [tsP])).2
      (by rw [getTouchDistance_horizontal 71 (by norm_num)]; norm_num [tsP])⟩

/-! ### C2: pinch is checked before fist -/

/-- C2 counterexample: with the current mode already FOCUS, a frame whose
pinch distance is below the pinch threshold and whose mean fingertip-to-wrist
distance is below the fist threshold, evaluated outside the debounce window,
yields TREE, not FOCUS: the pinch branch is skipped by its
not-already-FOCUS guard and the fist branch fires. -/
theorem gesture_priority_focus_cex :
    pinchDist zeroLm < 0.05 ∧ avgFingerDistance zeroLm < 0.25 ∧
      debounceTime ≤ (500 : ℤ) - (0 : ℤ) ∧
      (processGestures ⟨Mode.FOCUS, 0⟩ 500 zeroLm).mode = Mode.TREE := by
  refine ⟨by rw [pinchDist_zeroLm]; norm_num, by rw [avgFingerDistance_zeroLm]; norm_num,
    by norm_num [debounceTime], ?_⟩
  rw [processGestures]
  rw [if_neg (by norm_num [debounceTime])]
  rw [if_neg (by simp)]
  rw [if_pos ⟨by rw [avgFingerDistance_zeroLm]; norm_num, by simp⟩]

/-- C2 (amended): for every current mode other than FOCUS, a hand-landmark
frame whose pinch distance is below the pinch threshold and whose mean
fingertip-to-wrist distance is below the fist threshold, evaluated outside
the debounce window, results in mode FOCUS, never TREE. -/
theorem gesture_pinch_fist_priority (st : GCState) (now : ℤ) (lm : ℕ → LM)
    (hmode : st.mode ≠ Mode.FOCUS) (hdb : debounceTime ≤ now - st.lastGestureTime)
    (hpinch : pinchDist lm < 0.05) (hfist : avgFingerDistance lm < 0.25) :
    (processGestures st now lm).mode = Mode.FOCUS ∧
      (processGestures st now lm).mode ≠ Mode.TREE := by
  have h1 : ¬(now - st.lastGestureTime < debounceTime) := not_lt.mpr hdb
  rw [processGestures, if_neg h1, if_pos ⟨hpinch, hmode⟩]
  exact ⟨rfl, by simp⟩

theorem gesture_pinch_fist_priority_witness :
    (processGestures ⟨Mode.TREE, 0⟩ 500 zeroLm).mode = Mode.FOCUS ∧
      (processGestures ⟨Mode.TREE, 0⟩ 500 zeroLm).mode ≠ Mode.TREE :=
  gesture_pinch_fist_priority ⟨Mode.TREE, 0⟩ 500 zeroLm (by decide)
    (by norm_num [debounceTime]) (by rw [pinchDist_zeroLm]; norm_num)
    (by rw [avgFingerDistance_zeroLm]; norm_num)

/-! ### C7: gesture debounce suppresses the second transition -/

/-- C7: a qualifying gesture input processed outside the debounce window
performs a mode transition and records its timestamp; any second gesture
input whose timestamp is within the debounce window of the first is a
complete no-op, so the pair performs exactly one transition, not two. -/
theorem gesture_debounce_single_transition (st0 : GCState) (now1 now2 : ℤ)
    (lm1 lm2 : ℕ → LM) (hdb : debounceTime ≤ now1 - st0.lastGestureTime)
    (hq : Qualifies st0.mode lm1) (hwin : now2 - now1 < debounceTime) :
    (processGestures st0 now1 lm1).mode ≠ st0.mode ∧
      (processGestures st0 now1 lm1).lastGestureTime = now1 ∧
      processGestures (processGestures st0 now1 lm1) now2 lm2 =
        processGestures st0 now1 lm1 := by
  have h1 : ¬(now1 - st0.lastGestureTime < debounceTime) := not_lt.mpr hdb
  have hmain : (processGestures st0 now1 lm1).mode ≠ st0.mode ∧
      (processGestures st0 now1 lm1).lastGestureTime = now1 := by
    rw [processGestures, if_neg h1]
    by_cases c1 : pinchDist lm1 < 0.05 ∧ st0.mode ≠ Mode.FOCUS
    · rw [if_pos c1]
      exact ⟨Ne.symm c1.2, rfl⟩
    · rw [if_neg c1]
      by_cases c2 : avgFingerDistance lm1 < 0.25 ∧ st0.mode ≠ Mode.TREE
      · rw [if_pos c2]
        exact ⟨Ne.symm c2.2, rfl⟩
      · rw [if_neg c2]
        by_cases c3 : avgFingerDistance lm1 > 0.4 ∧ st0.mode ≠ Mode.SCATTER
        · rw [if_pos c3]
          exact ⟨Ne.symm c3.2, rfl⟩
        · rcases hq with h | h | h
          · exact absurd h c1
          · exact absurd h c2
          · exact absurd h c3
  refine ⟨hmain.1, hmain.2, ?_⟩
  rw [processGestures]
  rw [if_pos]
  rw [hmain.2]
  exact hwin

theorem gesture_debounce_single_transition_witness :
    (processGestures ⟨Mode.TREE, 0⟩ 500 zeroLm).mode ≠ Mode.TREE ∧
      (processGestures ⟨Mode.TREE, 0⟩ 500 zeroLm).lastGestureTime = 500 ∧
      processGestures (processGestures ⟨Mode.TREE, 0⟩ 500 zeroLm) 999 zeroLm =
        processGestures ⟨Mode.TREE, 0⟩ 500 zeroLm :=
  gesture_debounce_single_transition ⟨Mode.TREE, 0⟩ 500 999 zeroLm zeroLm
    (by norm_num [debounceTime])
    (Or.inl ⟨by rw [pinchDist_zeroLm]; norm_num, by decide⟩)
    (by norm_num [debounceTime])

/-! ### Square-root helper lemmas -/

lemma sqrt_le_of_sq_le {a b : ℝ} (hb : 0 ≤ b) (h : a ≤ b ^ 2) : Real.sqrt a ≤ b := by
  calc Real.sqrt a ≤ Real.sqrt (b ^ 2) := Real.sqrt_le_sqrt h
    _ = b := Real.sqrt_sq hb

lemma le_sqrt_of_sq_le {a b : ℝ} (ha : 0 ≤ a) (h : a ^ 2 ≤ b) : a ≤ Real.sqrt b := by
  calc a = Real.sqrt (a ^ 2) := (Real.sqrt_sq ha).symm
    _ ≤ Real.sqrt b := Real.sqrt_le_sqrt h

/-! ### C1: SCATTER-mode target distance from origin -/

/-- The random draw used by the C1 counterexample: first draw 0 selects the
minimum shell radius, third draw 0 gives polar angle arccos(-1) = pi whose
sine is 0, fourth draw 0.5 centers the independent height draw at 0. -/
def dCex : Draw := ⟨0, 0, 0, 0.5, 0⟩

/-- C1 counterexample: a legitimate outcome of the random draws sends a
non-photo particle to the origin in a SCATTER-mode layout pass on the
desktop profile, so its distance from the origin is 0, strictly below
minRadius = 8: the spec bound [minRadius, maxRadius] fails because the
height coordinate is drawn independently of the spherical radius. -/
theorem scatter_radius_cex :
    dCex.InUnit ∧ pDeco.isPhoto = false ∧
      vnorm (((updateParticlePositions false Mode.SCATTER 0 (fun _ => dCex)
          [pDeco]).getD 0 default).targetPosition) < 8 := by
  refine ⟨by norm_num [Draw.InUnit, dCex], rfl, ?_⟩
  have harc : Real.arccos (2 * (0 : ℝ) - 1) = Real.pi := by
    norm_num [Real.arccos_neg_one]
  simp only [updateParticlePositions, mapWithIndex, List.getD_cons_zero,
    scatterUpdate, dCex, pDeco]
  norm_num [harc, Real.sin_pi, vnorm]

/-- C1 (amended): after a SCATTER-mode layout pass, for every outcome of the
random draws, a non-photo particle's target lies within distance maxRadius
of the vertical axis (horizontal distance) and within Euclidean distance
1.25 * maxRadius of the origin; the original lower bound minRadius from the
origin does not hold. -/
theorem scatter_radius_bounds (isMobile : Bool) (u : ℝ) (draws : ℕ → Draw)
    (particles : List Particle) (i : ℕ) (hi : i < particles.length)
    (hd : ∀ k, (draws k).InUnit) (hnp : (particles.getD i default).isPhoto = false) :
    Real.sqrt
        ((((updateParticlePositions isMobile Mode.SCATTER u draws particles).getD i
            default).targetPosition).x ^ 2 +
          (((updateParticlePositions isMobile Mode.SCATTER u draws particles).getD i
            default).targetPosition).z ^ 2) ≤ (if isMobile then 15 else 20) ∧
      vnorm (((updateParticlePositions isMobile Mode.SCATTER u draws particles).getD i
          default).targetPosition) ≤ 1.25 * (if isMobile then 15 else 20) := by
  have hg := getD_mapWithIndex (fun k p => scatterUpdate isMobile (draws k) p) 0 particles i hi
  simp only [updateParticlePositions]
  rw [hg]
  simp only [Nat.zero_add]
  rw [scatterUpdate, if_neg (by rw [hnp]; exact Bool.false_ne_true)]
  simp only
  obtain ⟨⟨h10, h11⟩, -, -, ⟨h40, h41⟩, -⟩ := hd i
  have hsin2 : Real.sin (Real.arccos (2 * (draws i).d3 - 1)) ^ 2 ≤ 1 := Real.sin_sq_le_one _
  have hpyth : Real.cos ((draws i).d2 * Real.pi * 2) ^ 2 +
      Real.sin ((draws i).d2 * Real.pi * 2) ^ 2 = 1 := Real.cos_sq_add_sin_sq _
  cases isMobile with
  | false =>
      simp only [if_neg Bool.false_ne_true, Bool.false_eq_true, if_false]
      set r : ℝ := 8 + (draws i).d1 * (20 - 8) with hr
      set sp : ℝ := Real.sin (Real.arccos (2 * (draws i).d3 - 1)) with hsp
      set ct : ℝ := Real.cos ((draws i).d2 * Real.pi * 2) with hct
      set st2 : ℝ := Real.sin ((draws i).d2 * Real.pi * 2) with hst
      clear_value r sp ct st2
      have hr0 : 0 ≤ r := by rw [hr]; nlinarith
      have hrle : r ≤ 20 := by rw [hr]; nlinarith
      have hx2z2 : (r * sp * ct) ^ 2 + (r * sp * st2) ^ 2 ≤ 20 ^ 2 := by
        have hexp : (r * sp * ct) ^ 2 + (r * sp * st2) ^ 2 =
            r ^ 2 * sp ^ 2 * (ct ^ 2 + st2 ^ 2) := by ring
        rw [hexp, hpyth, mul_one]
        nlinarith [sq_nonneg r, sq_nonneg sp]
      constructor
      · exact sqrt_le_of_sq_le (by norm_num) hx2z2
      · rw [vnorm]
        simp only
        have hy2 : (((draws i).d4 - 0.5) * 20 * 1.5) ^ 2 ≤ 225 := by nlinarith
        apply sqrt_le_of_sq_le (by norm_num)
        have hsq : ((1.25 : ℝ) * 20) ^ 2 = 625 := by norm_num
        rw [hsq]
        linarith [hx2z2, hy2]
  | true =>
      simp only [eq_self_iff_true, if_true]
      set r : ℝ := 6 + (draws i).d1 * (15 - 6) with hr
      set sp : ℝ := Real.sin (Real.arccos (2 * (draws i).d3 - 1)) with hsp
      set ct : ℝ := Real.cos ((draws i).d2 * Real.pi * 2) with hct
      set st2 : ℝ := Real.sin ((draws i).d2 * Real.pi * 2) with hst
      clear_value r sp ct st2
      have hr0 : 0 ≤ r := by rw [hr]; nlinarith
      have hrle : r ≤ 15 := by rw [hr]; nlinarith
      have hx2z2 : (r * sp * ct) ^ 2 + (r * sp * st2) ^ 2 ≤ 15 ^ 2 := by
        have hexp : (r * sp * ct) ^ 2 + (r * sp * st2) ^ 2 =
            r ^ 2 * sp ^ 2 * (ct ^ 2 + st2 ^ 2) := by ring
        rw [hexp, hpyth, mul_one]
        nlinarith [sq_nonneg r, sq_nonneg sp]
      constructor
      · exact sqrt_le_of_sq_le (by norm_num) hx2z2
      · rw [vnorm]
        simp only
        have hy2 : (((draws i).d4 - 0.5) * 15 * 1.5) ^ 2 ≤ 126.5625 := by nlinarith
        apply sqrt_le_of_sq_le (by norm_num)
        have hsq : ((1.25 : ℝ) * 15) ^ 2 = 351.5625 := by norm_num
        rw [hsq]
        linarith [hx2z2, hy2]

theorem scatter_radius_bounds_witness :
    Real.sqrt
        ((((updateParticlePositions false Mode.SCATTER 0 (fun _ => dCex) [pDeco]).getD 0
            default).targetPosition).x ^ 2 +
          (((updateParticlePositions false Mode.SCATTER 0 (fun _ => dCex) [pDeco]).getD 0
            default).targetPosition).z ^ 2) ≤ (if (false : Bool) then 15 else 20) ∧
      vnorm (((updateParticlePositions false Mode.SCATTER 0 (fun _ => dCex) [pDeco]).getD 0
          default).targetPosition) ≤ 1.25 * (if (false : Bool) then 15 else 20) :=
  scatter_radius_bounds false 0 (fun _ => dCex) [pDeco] 0 (by norm_num)
    (fun _ => by norm_num [Draw.InUnit, dCex]) rfl

/-! ### C9: a layout pass mutates only targetPosition and scale -/

lemma treeUpdate_preserves (m : Bool) (n i : ℕ) (p : Particle) :
    (treeUpdate m n i p).id = p.id ∧ (treeUpdate m n i p).basePosition = p.basePosition ∧
      (treeUpdate m n i p).velocity = p.velocity ∧
      (treeUpdate m n i p).rotationSpeed = p.rotationSpeed ∧
      (treeUpdate m n i p).isPhoto = p.isPhoto := by
  by_cases hp : p.isPhoto <;> simp [treeUpdate, hp]

lemma treeUpdate_photo (m : Bool) (n i : ℕ) (p : Particle) (hp : p.isPhoto = true) :
    treeUpdate m n i p = p := by
  simp [treeUpdate, hp]

lemma scatterUpdate_preserves (m : Bool) (d : Draw) (p : Particle) :
    (scatterUpdate m d p).id = p.id ∧ (scatterUpdate m d p).basePosition = p.basePosition ∧
      (scatterUpdate m d p).velocity = p.velocity ∧
      (scatterUpdate m d p).rotationSpeed = p.rotationSpeed ∧
      (scatterUpdate m d p).isPhoto = p.isPhoto := by
  by_cases hp : p.isPhoto <;> simp [scatterUpdate, hp]

lemma scatterUpdate_photo (m : Bool) (d : Draw) (p : Particle) (hp : p.isPhoto = true) :
    scatterUpdate m d p = p := by
  simp [scatterUpdate, hp]

lemma focusUpdate_preserves (m : Bool) (tid : ℕ) (d : Draw) (p : Particle) :
    (focusUpdate m tid d p).id = p.id ∧ (focusUpdate m tid d p).basePosition = p.basePosition ∧
      (focusUpdate m tid d p).velocity = p.velocity ∧
      (focusUpdate m tid d p).rotationSpeed = p.rotationSpeed ∧
      (focusUpdate m tid d p).isPhoto = p.isPhoto := by
  by_cases h1 : p.id = tid
  · simp [focusUpdate, h1]
  · by_cases hp : p.isPhoto <;> simp [focusUpdate, h1, hp]

/-- C9: for every particle, every mode and every outcome of the random
draws, a layout pass preserves the collection length and each particle's
id, basePosition, velocity, rotationSpeed and isPhoto fields; furthermore
in TREE and SCATTER modes photo particles are left entirely unchanged
(targetPosition and scale included). -/
theorem layout_frame_effect (isMobile : Bool) (mode : Mode) (u : ℝ) (draws : ℕ → Draw)
    (particles : List Particle) :
    (updateParticlePositions isMobile mode u draws particles).length = particles.length ∧
      ∀ i : ℕ,
        (((updateParticlePositions isMobile mode u draws particles).getD i default).id =
            (particles.getD i default).id ∧
          ((updateParticlePositions isMobile mode u draws particles).getD i
              default).basePosition = (particles.getD i default).basePosition ∧
          ((updateParticlePositions isMobile mode u draws particles).getD i
              default).velocity = (particles.getD i default).velocity ∧
          ((updateParticlePositions isMobile mode u draws particles).getD i
              default).rotationSpeed = (particles.getD i default).rotationSpeed ∧
          ((updateParticlePositions isMobile mode u draws particles).getD i
              default).isPhoto = (particles.getD i default).isPhoto) ∧
        ((mode = Mode.TREE ∨ mode = Mode.SCATTER) →
          (particles.getD i default).isPhoto = true →
          (updateParticlePositions isMobile mode u draws particles).getD i default =
            particles.getD i default) := by
  cases mode with
  | TREE =>
      refine ⟨length_mapWithIndex _ _ _, ?_⟩
      intro i
      by_cases hi : i < particles.length
      · have hg := getD_mapWithIndex
          (fun k p => treeUpdate isMobile particles.length k p) 0 particles i hi
        simp only [updateParticlePositions]
        rw [hg]
        exact ⟨treeUpdate_preserves _ _ _ _,
          fun _ hp => treeUpdate_photo _ _ _ _ hp⟩
      · have hlen : particles.length ≤ i := le_of_not_lt hi
        have h1 : particles.getD i default = default :=
          List.getD_eq_default _ _ hlen
        have h2 : (updateParticlePositions isMobile Mode.TREE u draws particles).getD i
            default = default := by
          apply List.getD_eq_default
          simp only [updateParticlePositions]
          rw [length_mapWithIndex]
          exact hlen
        rw [h1, h2]
        exact ⟨⟨rfl, rfl, rfl, rfl, rfl⟩, fun _ _ => rfl⟩
  | SCATTER =>
      refine ⟨length_mapWithIndex _ _ _, ?_⟩
      intro i
      by_cases hi : i < particles.length
      · have hg := getD_mapWithIndex
          (fun k p => scatterUpdate isMobile (draws k) p) 0 particles i hi
        simp only [updateParticlePositions]
        rw [hg]
        exact ⟨scatterUpdate_preserves _ _ _,
          fun _ hp => scatterUpdate_photo _ _ _ hp⟩
      · have hlen : particles.length ≤ i := le_of_not_lt hi
        have h1 : particles.getD i default = default :=
          List.getD_eq_default _ _ hlen
        have h2 : (updateParticlePositions isMobile Mode.SCATTER u draws particles).getD i
            default = default := by
          apply List.getD_eq_default
          simp only [updateParticlePositions]
          rw [length_mapWithIndex]
          exact hlen
        rw [h1, h2]
        exact ⟨⟨rfl, rfl, rfl, rfl, rfl⟩, fun _ _ => rfl⟩
  | FOCUS =>
      by_cases hph : 0 < (particles.filter (fun p => p.isPhoto)).length
      · have hres : updateParticlePositions isMobile Mode.FOCUS u draws particles =
            mapWithIndex
              (fun i p => focusUpdate isMobile (focusTargetId u particles) (draws i) p) 0
              particles := by
          simp only [updateParticlePositions]
          rw [if_pos hph]
        rw [hres]
        refine ⟨length_mapWithIndex _ _ _, ?_⟩
        intro i
        by_cases hi : i < particles.length
        · have hg := getD_mapWithIndex
            (fun k p => focusUpdate isMobile (focusTargetId u particles) (draws k) p) 0
            particles i hi
          rw [hg]
          exact ⟨focusUpdate_preserves _ _ _ _, fun hcon _ => by
            rcases hcon with h | h <;> exact absurd h (by simp)⟩
        · have hlen : particles.length ≤ i := le_of_not_lt hi
          have h1 : particles.getD i default = default :=
            List.getD_eq_default _ _ hlen
          have h2 : (mapWithIndex
              (fun k p => focusUpdate isMobile (focusTargetId u particles) (draws k) p) 0
              particles).getD i default = default := by
            apply List.getD_eq_default
            rw [length_mapWithIndex]
            exact hlen
          rw [h1, h2]
          exact ⟨⟨rfl, rfl, rfl, rfl, rfl⟩, fun _ _ => rfl⟩
      · have hres : updateParticlePositions isMobile Mode.FOCUS u draws particles =
            particles := by
          simp only [updateParticlePositions]
          rw [if_neg hph]
        rw [hres]
        exact ⟨rfl, fun i => ⟨⟨rfl, rfl, rfl, rfl, rfl⟩, fun _ _ => rfl⟩⟩

theorem layout_frame_effect_witness :
    (updateParticlePositions false Mode.TREE 0 (fun _ => dZero) [pPhoto2]).length = 1 ∧
      (updateParticlePositions false Mode.TREE 0 (fun _ => dZero) [pPhoto2]).getD 0 default =
        [pPhoto2].getD 0 default :=
  ⟨(layout_frame_effect false Mode.TREE 0 (fun _ => dZero) [pPhoto2]).1,
    ((layout_frame_effect false Mode.TREE 0 (fun _ => dZero) [pPhoto2]).2 0).2
      (Or.inl rfl) rfl⟩

/-! ### C5: FOCUS with at least one photo designates a unique stage photo -/

lemma getD_mem_of_lt {l : List Particle} {i : ℕ} (h : i < l.length) :
    l.getD i default ∈ l := by
  induction l generalizing i with
  | nil => simp at h
  | cons b bs ih =>
      cases i with
      | zero => simp
      | succ j =>
          simp only [List.getD_cons_succ]
          exact List.mem_cons_of_mem b (ih (by simpa using h))

lemma mem_getD_of_mem {l : List Particle} {a : Particle} (h : a ∈ l) :
    ∃ i, i < l.length ∧ l.getD i default = a := by
  induction l with
  | nil => simp at h
  | cons b bs ih =>
      rcases List.mem_cons.mp h with h | h
      · exact ⟨0, by simp, by simp [h]⟩
      · rcases ih h with ⟨i, hi, hg⟩
        exact ⟨i + 1, by simpa using hi, by simpa using hg⟩

/-- C5: for every particle collection with at least one photo particle
(and pairwise-distinct particle identities), a FOCUS-mode layout pass
assigns exactly one photo particle the fixed stage targetPosition together
with the enlarged scale, and every other photo particle receives a
targetPosition whose distance from the origin is at least the outer-ring
minimum band, for every outcome of the random draws. -/
theorem focus_stage_unique (isMobile : Bool) (u : ℝ) (draws : ℕ → Draw)
    (particles : List Particle) (hnodup : (particles.map Particle.id).Nodup)
    (hph : 0 < (particles.filter (fun p => p.isPhoto)).length)
    (hu0 : 0 ≤ u) (hu1 : u < 1) (hd : ∀ k, (draws k).InUnit) :
    (∃! q, q ∈ updateParticlePositions isMobile Mode.FOCUS u draws particles ∧
        q.isPhoto = true ∧
        q.targetPosition = ⟨0, 2, if isMobile then 25 else 35⟩ ∧
        q.scale = (if isMobile then (3.5 : ℝ) else 4.5)) ∧
      ∀ q ∈ updateParticlePositions isMobile Mode.FOCUS u draws particles,
        q.isPhoto = true → q.id ≠ focusTargetId u particles →
          (if isMobile then (15 : ℝ) else 20) ≤ vnorm q.targetPosition := by
  have hlen0 : (0 : ℝ) < ((particles.filter (fun p => p.isPhoto)).length : ℝ) := by
    exact_mod_cast hph
  have hjlt : Nat.floor (u * ((particles.filter (fun p => p.isPhoto)).length : ℝ)) <
      (particles.filter (fun p => p.isPhoto)).length := by
    rw [Nat.floor_lt (mul_nonneg hu0 hlen0.le)]
    calc u * ((particles.filter (fun p => p.isPhoto)).length : ℝ) <
        1 * ((particles.filter (fun p => p.isPhoto)).length : ℝ) :=
          mul_lt_mul_of_pos_right hu1 hlen0
      _ = ((particles.filter (fun p => p.isPhoto)).length : ℝ) := one_mul _
  set target := (particles.filter (fun p => p.isPhoto)).getD
    (Nat.floor (u * ((particles.filter (fun p => p.isPhoto)).length : ℝ))) default
    with htargetdef
  have htarget_mem_photos : target ∈ particles.filter (fun p => p.isPhoto) :=
    getD_mem_of_lt hjlt
  have htarget_mem : target ∈ particles := (List.mem_filter.mp htarget_mem_photos).1
  have htarget_photo : target.isPhoto = true := by
    simpa using (List.mem_filter.mp htarget_mem_photos).2
  have htid : focusTargetId u particles = target.id := by
    rw [focusTargetId]
  have hres : updateParticlePositions isMobile Mode.FOCUS u draws particles =
      mapWithIndex (fun i p => focusUpdate isMobile (focusTargetId u particles) (draws i) p)
        0 particles := by
    simp only [updateParticlePositions]
    rw [if_pos hph]
  have hq0 : ∀ d, focusUpdate isMobile (focusTargetId u particles) d target =
      { target with
          targetPosition := ⟨0, 2, if isMobile then 25 else 35⟩
          scale := if isMobile then (3.5 : ℝ) else 4.5 } := by
    intro d
    rw [focusUpdate, if_pos htid.symm]
  rcases mem_getD_of_mem htarget_mem with ⟨idx, hidx, hgidx⟩
  have hmain_mem : ({ target with
      targetPosition := (⟨0, 2, if isMobile then 25 else 35⟩ : Vec3)
      scale := if isMobile then (3.5 : ℝ) else 4.5 } : Particle) ∈
        updateParticlePositions isMobile Mode.FOCUS u draws particles := by
    rw [hres]
    have h1 := getD_mapWithIndex
      (fun k p => focusUpdate isMobile (focusTargetId u particles) (draws k) p) 0 particles
      idx hidx
    simp only [Nat.zero_add] at h1
    rw [hgidx, hq0 (draws idx)] at h1
    have h2 : idx < (mapWithIndex
        (fun k p => focusUpdate isMobile (focusTargetId u particles) (draws k) p) 0
        particles).length := by
      rw [length_mapWithIndex]
      exact hidx
    have h3 := getD_mem_of_lt h2
    rw [h1] at h3
    exact h3
  constructor
  · refine ⟨{ target with
        targetPosition := ⟨0, 2, if isMobile then 25 else 35⟩
        scale := if isMobile then (3.5 : ℝ) else 4.5 }, ⟨hmain_mem, ?_, rfl, rfl⟩, ?_⟩
    · simpa using htarget_photo
    · intro q hq
      obtain ⟨hqmem, hqphoto, hqpos, hqscale⟩ := hq
      rw [hres] at hqmem
      rcases mem_mapWithIndex _ _ _ _ hqmem with ⟨k, hk, hqe⟩
      simp only [Nat.zero_add] at hqe
      by_cases hpkid : (particles.getD k default).id = focusTargetId u particles
      · have hpk_eq_target : particles.getD k default = target := by
          apply List.inj_on_of_nodup_map hnodup (getD_mem_of_lt hk) htarget_mem
          rw [hpkid, htid]
        rw [hqe, hpk_eq_target, hq0 (draws k)]
      · exfalso
        by_cases hpkphoto : (particles.getD k default).isPhoto = true
        · rw [hqe, focusUpdate, if_neg hpkid, if_pos hpkphoto] at hqscale
          simp only at hqscale
          cases isMobile with
          | false => norm_num at hqscale
          | true => norm_num at hqscale
        · rw [hqe, focusUpdate, if_neg hpkid, if_neg hpkphoto] at hqphoto
          simp only at hqphoto
          exact hpkphoto (by rw [← hqphoto])
  · intro q hqmem hqphoto hqid
    rw [hres] at hqmem
    rcases mem_mapWithIndex _ _ _ _ hqmem with ⟨k, hk, hqe⟩
    simp only [Nat.zero_add] at hqe
    by_cases hpkid : (particles.getD k default).id = focusTargetId u particles
    · exfalso
      apply hqid
      rw [hqe, focusUpdate, if_pos hpkid]
      simpa using hpkid
    · by_cases hpkphoto : (particles.getD k default).isPhoto = true
      · rw [hqe, focusUpdate, if_neg hpkid, if_pos hpkphoto]
        simp only
        obtain ⟨-, ⟨h20, h21⟩, -, -, -⟩ := hd k
        have hpyth := Real.cos_sq_add_sin_sq ((draws k).d1 * Real.pi * 2)
        cases isMobile with
        | false =>
            simp only [Bool.false_eq_true, if_false]
            rw [vnorm]
            apply le_sqrt_of_sq_le (by norm_num)
            set A := (draws k).d1 * Real.pi * 2 with hA
            set R : ℝ := 20 + (draws k).d2 * 10 with hR
            clear_value A R
            have hRsq : (Real.cos A * R) ^ 2 + (Real.sin A * R) ^ 2 = R ^ 2 := by
              nlinarith [hpyth]
            have hRge : (20 : ℝ) ≤ R := by rw [hR]; nlinarith
            nlinarith [hRsq, hRge, sq_nonneg (((draws k).d3 - 0.5) * 10)]
        | true =>
            simp only [eq_self_iff_true, if_true]
            rw [vnorm]
            apply le_sqrt_of_sq_le (by norm_num)
            set A := (draws k).d1 * Real.pi * 2 with hA
            set R : ℝ := 15 + (draws k).d2 * 10 with hR
            clear_value A R
            have hRsq : (Real.cos A * R) ^ 2 + (Real.sin A * R) ^ 2 = R ^ 2 := by
              nlinarith [hpyth]
            have hRge : (15 : ℝ) ≤ R := by rw [hR]; nlinarith
            nlinarith [hRsq, hRge, sq_nonneg (((draws k).d3 - 0.5) * 10)]
      · exfalso
        rw [hqe, focusUpdate, if_neg hpkid, if_neg hpkphoto] at hqphoto
        simp only at hqphoto
        exact hpkphoto (by rw [← hqphoto])

theorem focus_stage_unique_witness :
    (∃! q, q ∈ updateParticlePositions false Mode.FOCUS 0 (fun _ => dZero) [pPhoto2] ∧
        q.isPhoto = true ∧
        q.targetPosition = ⟨0, 2, if (false : Bool) then 25 else 35⟩ ∧
        q.scale = (if (false : Bool) then (3.5 : ℝ) else 4.5)) ∧
      ∀ q ∈ updateParticlePositions false Mode.FOCUS 0 (fun _ => dZero) [pPhoto2],
        q.isPhoto = true → q.id ≠ focusTargetId 0 [pPhoto2] →
          (if (false : Bool) then (15 : ℝ) else 20) ≤ vnorm q.targetPosition :=
  focus_stage_unique false 0 (fun _ => dZero) [pPhoto2] (by simp)
    (by simp [pPhoto2]) le_rfl (by norm_num)
    (fun _ => by norm_num [Draw.InUnit, dZero])

end WebTreeApp
